import Mathlib

/-!
Verification of the shopify-variant-tagger reconciliation engine.

The repository is a family of near-duplicate Express services; the canonical
engine is the first document of `src/index.js`: the `/tag-variants` handler
with its cooldown set (lines 101-110), classification block (lines 120-130)
and skip-or-write decision (lines 126-144).  The full Write Guard with
normalization and the empty-sentinel rule is in `src/unnamed/part_001`
(lines 168-186); the bulk enumerator `fetchAllVariants` is in
`src/unnamed/part_003` (lines 12-76).

Modelling conventions:
* timestamps are `Int` milliseconds since epoch (`new Date(x).getTime()`);
* prices are exact rationals (the compared values are decimal strings with
  two fraction digits; IEEE-754 binary64 comparison of `parseFloat` of such
  strings agrees with the exact rational comparison at every input used
  below);
* an absent `compareAtPrice` is `Option.none`, and `parseFloat(x || "0")`
  becomes `Option.getD _ 0`;
* JavaScript strings are lists of characters, with `.trim()` and
  `.toLowerCase()` translated for the ASCII alphabet the labels use;
* the in-memory cooldown `Set` plus its scheduled `setTimeout` deletion is
  a list of `(id, expiry)` pairs, an entry being visible at time `t` iff
  `t < expiry` (the timer fires exactly at the expiry instant);
* the outcome of each catalog read is an oracle argument, so that the
  handler's behavior is quantified over every response the platform can
  give (thrown network error, unparsable body, GraphQL errors, missing
  variant, or a full record).
-/

namespace VariantTagger

/-- JavaScript strings, as lists of characters. -/
abbrev JStr := List Char

/-- A JS string from a Lean string literal. -/
def js (s : String) : JStr := s.data

/-- ASCII lowercasing of one character: the effect of
`String.prototype.toLowerCase` on the alphabet the labels use. -/
def lowerChar (c : Char) : Char :=
  if 'A' ≤ c ∧ c ≤ 'Z' then Char.ofNat (c.toNat + 32) else c

/-- `s.toLowerCase()`. -/
def toLower (s : JStr) : JStr := s.map lowerChar

/-- The whitespace characters stripped by `.trim()` (ASCII subset). -/
def isWS (c : Char) : Bool := c == ' ' || c == '\t' || c == '\n' || c == '\r'

/-- Drop leading whitespace. -/
def trimL : JStr → JStr
  | [] => []
  | c :: cs => if isWS c then trimL cs else c :: cs

/-- `s.trim()`: drop leading and trailing whitespace. -/
def trim (s : JStr) : JStr := (trimL ((trimL s).reverse)).reverse

/-- The four merchandising labels computed by the classification block. -/
inductive Label
  | new
  | offer
  | hot
  | none
deriving DecidableEq, Repr

/-- The string written for each label by `src/index.js` lines 127-130:
`"none"`, `"new"`, `"offer"`, `"hot"`. -/
def labelStr : Label → JStr
  | .new => js "new"
  | .offer => js "offer"
  | .hot => js "hot"
  | .none => js "none"

/-- The capitalized string produced by `src/unnamed/part_001` lines 170-179,
before the `toLowerCase()` at its line 180. -/
def labelStrCap : Label → JStr
  | .new => js "New"
  | .offer => js "Offer"
  | .hot => js "Hot"
  | .none => js "None"

/-- `ms45d = 45 * 24 * 60 * 60 * 1000` (src/index.js line 105). -/
def ms45d : Int := 45 * 24 * 60 * 60 * 1000

/-- The classification inputs fetched for one variant
(src/index.js lines 120-125). -/
structure VariantAttrs where
  createdAt : Int
  prodCreated : Int
  price : ℚ
  compareAtPrice : Option ℚ
  isBest : Bool
deriving DecidableEq, Repr

/-- `parseFloat(v.compareAtPrice || "0")` (src/index.js line 122): an absent
compare-at price reads as 0. -/
def cmpPrice (v : VariantAttrs) : ℚ := v.compareAtPrice.getD 0

/-- The classification block of src/index.js lines 127-130: first match wins
over New, Offer, Hot, with default `"none"`. -/
def classify (now : Int) (v : VariantAttrs) : Label :=
  if v.createdAt > v.prodCreated ∧ now - v.createdAt < ms45d then .new
  else if cmpPrice v > v.price then .offer
  else if v.isBest then .hot
  else .none

/-- `(csm.tag || "").trim().toLowerCase()` (src/index.js line 126,
src/unnamed/part_001 line 168): normalization of the stored tag. -/
def normalizeTag (raw : Option JStr) : JStr := toLower (trim (raw.getD []))

/-- The Write Guard of src/unnamed/part_001 lines 168-186: the computed tag
is lowercased (line 180) and the write is skipped when it equals the
normalized current tag, or when it is `"none"` and the current tag is empty
(line 183). -/
def skipWrite (rawCur : Option JStr) (target : Label) : Bool :=
  let currentTag := normalizeTag rawCur
  let newTag := toLower (labelStrCap target)
  newTag == currentTag || (newTag == js "none" && currentTag == [])

/-- Modelled from the words of the Write Guard contract (spec section 4.4):
skip exactly when the two labels agree after trimming whitespace and
lowercasing both, or when the target is the None sentinel and the current
label is already empty. -/
def skipSpec (cur : JStr) (target : Label) : Prop :=
  toLower (trim cur) = toLower (trim (labelStrCap target)) ∨
    (target = Label.none ∧ trim cur = [])

/-- The cooldown tracker: `recentlyTagged` entries with the instant at which
the `setTimeout` scheduled on insertion fires (src/index.js lines 101-110). -/
structure Cooldown where
  entries : List (String × Int)
deriving DecidableEq, Repr

/-- The tracker at process start: empty. -/
def Cooldown.empty : Cooldown := ⟨[]⟩

/-- `recentlyTagged.has(id)` at time `t`: an entry inserted for `id` whose
deletion timer has not yet fired. -/
def Cooldown.hasId (s : Cooldown) (t : Int) (id : String) : Bool :=
  s.entries.any fun e => e.1 == id && decide (t < e.2)

/-- The 30000 ms of `setTimeout(() => recentlyTagged.delete(id), 30000)`
(src/index.js line 110). -/
def cooldownMs : Int := 30000

/-- Every way one catalog read can end, as observed by the per-id handler:
the fetch throws, the body does not parse (line 116), GraphQL errors
(line 117), no variant in the data (line 119), or a full record together
with the stored raw tag. -/
inductive ReadOutcome
  | netError
  | parseError
  | gqlErrors
  | notFound
  | ok (v : VariantAttrs) (rawTag : Option JStr)

/-- The outbound catalog calls a handler iteration performs. -/
inductive Action
  | read
  | write (tag : JStr)
deriving DecidableEq, Repr

/-- How one iteration of the `/tag-variants` loop ended. -/
inductive PerIdStatus
  | cooldownSkip
  | caughtError
  | parseErr
  | gqlErr
  | noVariant
  | unchanged
  | tagged (tag : JStr)
deriving DecidableEq, Repr

/-- One iteration of the `/tag-variants` loop of src/index.js lines 106-148
for id `id` at request time `now`, with the read's outcome supplied by the
oracle `o`: the cooldown gate (line 108) runs first; on admission the entry
is inserted with its deletion timer (lines 109-110) before the read is
issued; every failure branch `continue`s (lines 116-119, 145-147) and none
removes the entry; otherwise the skip-or-write decision of lines 136-143. -/
def handleVariant (s : Cooldown) (id : String) (now : Int) (o : ReadOutcome) :
    Cooldown × PerIdStatus × List Action :=
  if s.hasId now id then (s, .cooldownSkip, [])
  else
    match o with
    | .netError => (⟨(id, now + cooldownMs) :: s.entries⟩, .caughtError, [.read])
    | .parseError => (⟨(id, now + cooldownMs) :: s.entries⟩, .parseErr, [.read])
    | .gqlErrors => (⟨(id, now + cooldownMs) :: s.entries⟩, .gqlErr, [.read])
    | .notFound => (⟨(id, now + cooldownMs) :: s.entries⟩, .noVariant, [.read])
    | .ok v rawTag =>
      if labelStr (classify now v) == normalizeTag rawTag then
        (⟨(id, now + cooldownMs) :: s.entries⟩, .unchanged, [.read])
      else
        (⟨(id, now + cooldownMs) :: s.entries⟩, .tagged (labelStr (classify now v)),
          [.read, .write (labelStr (classify now v))])

/-- The one piece of catalog state this engine mutates: the stored
`custom.tag` metafield of the variant. -/
structure Catalog where
  rawTag : Option JStr
deriving DecidableEq, Repr

/-- One full reconciliation run for a single variant whose read succeeds and
returns the stored tag: the handler iteration, with a successful write
updating the stored metafield to the written string; the third component
counts label writes. -/
def runPipeline (s : Cooldown) (cat : Catalog) (v : VariantAttrs) (id : String)
    (now : Int) : Cooldown × Catalog × Nat :=
  match handleVariant s id now (.ok v cat.rawTag) with
  | (s', .tagged tag, _) => (s', ⟨some tag⟩, 1)
  | (s', _, _) => (s', cat, 0)

/-- Concrete scenario: a best-selling variant, no compare price, not newer
than its product, whose stored tag is already `"hot"`. -/
def exAttrs : VariantAttrs := ⟨0, 0, 10, Option.none, true⟩

/-- The catalog already holding the target label for `exAttrs`. -/
def exCatalog : Catalog := ⟨some (js "hot")⟩

/-- First run of the pipeline on the already-correct variant. -/
def exRun1 : Cooldown × Catalog × Nat :=
  runPipeline Cooldown.empty exCatalog exAttrs "v1" 0

/-- Second, immediately following run on the same unchanged variant. -/
def exRun2 : Cooldown × Catalog × Nat :=
  runPipeline exRun1.1 exRun1.2.1 exAttrs "v1" 1

/-- One page of the bulk enumeration: the variant ids its edges carry, and
which fetch attempt (0-based) for it succeeds. -/
structure PageSpec where
  ids : List String
  ok : Nat → Bool

/-- `MAX_RETRIES = 3` (src/unnamed/part_003 line 16). -/
def MAX_RETRIES : Nat := 3

/-- The inner `while (attempt < MAX_RETRIES)` retry loop of
`fetchAllVariants` (src/unnamed/part_003 lines 36-59): the remaining
attempts count down, the loop ends at the first success, and exhausting
them yields failure. -/
def pageFetchOk (ok : Nat → Bool) : Nat → Nat → Bool
  | _, 0 => false
  | attempt, fuel + 1 => if ok attempt then true else pageFetchOk ok (attempt + 1) fuel

/-- `fetchAllVariants` (src/unnamed/part_003 lines 12-76) over the sequence
of pages the platform would serve: each page's ids are appended on success;
when a page exhausts its retries the ids collected so far are returned
(line 56) and no further page is visited. -/
def fetchAllVariants : List PageSpec → List String
  | [] => []
  | p :: rest =>
    if pageFetchOk p.ok 0 MAX_RETRIES then p.ids ++ fetchAllVariants rest
    else []

/-- A page that fails its first two fetch attempts and succeeds on the
third (the last one allowed). -/
def pageA : PageSpec := ⟨["a"], fun i => decide (2 ≤ i)⟩

/-- A page whose every fetch attempt fails. -/
def pageBad : PageSpec := ⟨["b"], fun _ => false⟩

/-- A page that succeeds at once. -/
def pageC : PageSpec := ⟨["c"], fun _ => true⟩

/-- The `/tag-variants` loop over a whole batch (src/index.js lines
106-148): each id is handled in turn, its per-id status recorded, and the
loop always reaches the next id whatever the previous outcome was. -/
def processBatch (now : Int) :
    Cooldown → List (String × ReadOutcome) → Cooldown × List (String × PerIdStatus)
  | s, [] => (s, [])
  | s, (id, o) :: batch =>
    let r := handleVariant s id now o
    let t := processBatch now r.1 batch
    (t.1, (id, r.2.1) :: t.2)

/-- What the inbound `/webhook` gate does with a request. -/
inductive WebhookResult
  | unauthorized
  | forwarded (ids : List String)
deriving DecidableEq, Repr

/-- The inbound gate of src/index.js lines 73-91: a digest mismatch answers
401 before any processing; otherwise the extracted variant ids are handed to
`/tag-variants`.  `sigValid` is the outcome of the signature comparison. -/
def webhookHandler (sigValid : Bool) (ids : List String) : WebhookResult :=
  if sigValid then .forwarded ids else .unauthorized

/-! Helper lemmas shared by the claim theorems. -/

theorem toLower_labelStrCap (l : Label) : toLower (labelStrCap l) = labelStr l := by
  cases l <;> rfl

theorem trim_labelStrCap (l : Label) : trim (labelStrCap l) = labelStrCap l := by
  cases l <;> rfl

theorem toLower_nil_iff (s : JStr) : toLower s = [] ↔ s = [] := by
  simp [toLower]

theorem handleVariant_suppressed (s : Cooldown) (id : String) (now : Int)
    (o : ReadOutcome) (h : s.hasId now id = true) :
    handleVariant s id now o = (s, .cooldownSkip, []) := by
  simp [handleVariant, h]

theorem handleVariant_admitted (s : Cooldown) (id : String) (now : Int)
    (o : ReadOutcome) (h : s.hasId now id = false) :
    (handleVariant s id now o).1 = ⟨(id, now + cooldownMs) :: s.entries⟩ ∧
    Action.read ∈ (handleVariant s id now o).2.2 := by
  cases o <;> simp [handleVariant, h]
  split <;> simp

theorem hasId_cons_self (rest : List (String × Int)) (id : String) (t e : Int)
    (h : t < e) : Cooldown.hasId ⟨(id, e) :: rest⟩ t id = true := by
  simp [Cooldown.hasId, h]

theorem hasId_single_expired (id : String) (t e : Int) (h : e ≤ t) :
    Cooldown.hasId ⟨[(id, e)]⟩ t id = false := by
  simp [Cooldown.hasId, not_lt.mpr h]

theorem pageFetchOk_three (ok : Nat → Bool) :
    pageFetchOk ok 0 MAX_RETRIES = (ok 0 || ok 1 || ok 2) := by
  have e : pageFetchOk ok 0 MAX_RETRIES
      = if ok 0 then true
        else if ok 1 then true
        else if ok 2 then true
        else false := rfl
  rw [e]
  cases h0 : ok 0 <;> cases h1 : ok 1 <;> cases h2 : ok 2 <;> simp [h0, h1, h2]

theorem skipWrite_some (cur : JStr) (t : Label) :
    skipWrite (some cur) t
      = ((labelStr t == toLower (trim cur)) ||
         (labelStr t == js "none" && toLower (trim cur) == [])) := by
  simp only [skipWrite, normalizeTag, toLower_labelStrCap, Option.getD_some]

theorem skipWrite_iff_not_none (cur : JStr) (t : Label) (ht : t ≠ Label.none) :
    skipWrite (some cur) t = true ↔ skipSpec cur t := by
  have e : (labelStr t == js "none") = false := by
    cases t
    case none => exact absurd rfl ht
    all_goals decide
  rw [skipWrite_some, e]
  simp only [Bool.false_and, Bool.or_false, beq_iff_eq]
  unfold skipSpec
  rw [trim_labelStrCap, toLower_labelStrCap]
  constructor
  · intro h
    exact Or.inl h.symm
  · rintro (h | ⟨h, -⟩)
    · exact h.symm
    · exact absurd h ht

/-! The claims. -/

/-- C1: the classifier is total and first-match: it returns New exactly when
the variant postdates its parent and is younger than 45 days, otherwise
Offer exactly when the compare price exceeds the price, otherwise Hot
exactly when the best-seller flag is set, otherwise None; the four cases
are mutually exclusive and exhaustive, so exactly one label is returned and
higher-priority rules always win. -/
theorem classify_first_match_priority (now : Int) (v : VariantAttrs) :
    (classify now v = .new ↔
      (v.prodCreated < v.createdAt ∧ now - v.createdAt < ms45d)) ∧
    (classify now v = .offer ↔
      (¬(v.prodCreated < v.createdAt ∧ now - v.createdAt < ms45d) ∧
        v.price < cmpPrice v)) ∧
    (classify now v = .hot ↔
      (¬(v.prodCreated < v.createdAt ∧ now - v.createdAt < ms45d) ∧
        ¬v.price < cmpPrice v ∧ v.isBest = true)) ∧
    (classify now v = .none ↔
      (¬(v.prodCreated < v.createdAt ∧ now - v.createdAt < ms45d) ∧
        ¬v.price < cmpPrice v ∧ v.isBest = false)) := by
  unfold classify
  split_ifs with h1 h2 h3 <;> simp_all

/-- C2: the Write Guard skips exactly when current and target agree after
trimming and lowercasing both, or when the target is the None sentinel and
the current label is empty; in particular a stored `"Hot"` against target
Hot is skipped. -/
theorem write_guard_skip_iff :
    (∀ (cur : JStr) (target : Label),
        skipWrite (some cur) target = true ↔ skipSpec cur target) ∧
    skipWrite (some (js "Hot")) Label.hot = true := by
  constructor
  · intro cur target
    by_cases ht : target = Label.none
    · subst ht
      rw [skipWrite_some]
      have e : (labelStr Label.none == js "none") = true := by decide
      rw [e]
      simp only [Bool.true_and, Bool.or_eq_true, beq_iff_eq]
      unfold skipSpec
      rw [trim_labelStrCap, toLower_labelStrCap, toLower_nil_iff]
      constructor
      · rintro (h | h)
        · exact Or.inl h.symm
        · exact Or.inr ⟨rfl, h⟩
      · rintro (h | ⟨-, h⟩)
        · exact Or.inl h.symm
        · exact Or.inr h
    · exact skipWrite_iff_not_none cur target ht
  · decide

/-- C4: the Offer rule is strict: a compare price equal to the price never
yields Offer; a compare price exceeding the price by 0.01 yields Offer when
the New rule does not fire; an absent compare price reads as 0 and can
never yield Offer for a non-negative price. -/
theorem offer_rule_boundary :
    (∀ (now : Int) (v : VariantAttrs), cmpPrice v = v.price →
        classify now v ≠ Label.offer) ∧
    (∀ (now : Int) (v : VariantAttrs),
        ¬(v.createdAt > v.prodCreated ∧ now - v.createdAt < ms45d) →
        v.compareAtPrice = some (v.price + 1 / 100) →
        classify now v = Label.offer) ∧
    (∀ (now : Int) (v : VariantAttrs), v.compareAtPrice = Option.none →
        0 ≤ v.price → classify now v ≠ Label.offer) := by
  refine ⟨?_, ?_, ?_⟩
  · intro now v h
    unfold classify
    rw [h]
    split_ifs with h1 h2
    · simp
    · exact absurd h2 (lt_irrefl v.price)
    · simp
    · simp
  · intro now v h1 h2
    have hc : cmpPrice v > v.price := by
      rw [cmpPrice, h2, Option.getD_some]
      have : (0 : ℚ) < 1 / 100 := by norm_num
      linarith
    unfold classify
    rw [if_neg h1, if_pos hc]
  · intro now v h hp
    have hc : cmpPrice v = 0 := by rw [cmpPrice, h]; rfl
    unfold classify
    rw [hc]
    split_ifs with h1 h2
    · simp
    · exact absurd h2 (not_lt.mpr hp)
    · simp
    · simp

/-- Witness for C4: a compare price of 10 against price 10 is not an Offer;
price 0 with compare price 0.01 is an Offer; price 10 with no compare price
is not an Offer. -/
theorem offer_rule_boundary_witness :
    classify 0 ⟨0, 0, 10, some 10, true⟩ ≠ Label.offer ∧
    classify 0 ⟨0, 0, 0, some (0 + 1 / 100), false⟩ = Label.offer ∧
    classify 0 ⟨0, 0, 10, Option.none, false⟩ ≠ Label.offer :=
  ⟨offer_rule_boundary.1 0 _ rfl,
   offer_rule_boundary.2.1 0 _ (by decide) rfl,
   offer_rule_boundary.2.2 0 _ rfl (by norm_num)⟩

/-- C5: given a parent older than the variant, a variant created exactly 45
days (to the millisecond) before `now` is not New, while one created 44
days 23 hours before `now` is New: the window is exclusive at 45 days. -/
theorem new_window_boundary (now : Int) (v : VariantAttrs)
    (hp : v.prodCreated < v.createdAt) :
    (now - v.createdAt = ms45d → classify now v ≠ Label.new) ∧
    (now - v.createdAt = 44 * 24 * 60 * 60 * 1000 + 23 * 60 * 60 * 1000 →
        classify now v = Label.new) := by
  constructor
  · intro h
    unfold classify
    have hno : ¬(v.createdAt > v.prodCreated ∧ now - v.createdAt < ms45d) := by
      rintro ⟨-, hlt⟩
      rw [h] at hlt
      exact lt_irrefl _ hlt
    rw [if_neg hno]
    split_ifs <;> simp
  · intro h
    unfold classify
    rw [if_pos ⟨hp, by rw [h]; decide⟩]

/-- Witness for C5: with the parent 1 ms older, creation 3888000000 ms
(exactly 45 days) before `now` is not New and creation 3884400000 ms (44
days 23 hours) before `now` is New. -/
theorem new_window_boundary_witness :
    classify 3888000000 ⟨0, -1, 0, Option.none, false⟩ ≠ Label.new ∧
    classify 3884400000 ⟨0, -1, 0, Option.none, false⟩ = Label.new :=
  ⟨(new_window_boundary 3888000000 ⟨0, -1, 0, Option.none, false⟩ (by decide)).1
      (by decide),
   (new_window_boundary 3884400000 ⟨0, -1, 0, Option.none, false⟩ (by decide)).2
      (by decide)⟩

/-- C3 counterexample: a variant whose attributes do not change and whose
stored label already equals the computed target (`exAttrs` is a best seller
already tagged `"hot"`) gets zero label writes across two immediate runs,
so the total is not the one write the claim demands for every unchanged
variant. -/
theorem pipeline_two_runs_counterexample : ¬(exRun1.2.2 + exRun2.2.2 = 1) := by
  decide

/-- C3 amended: for a variant whose attributes do not change between runs
and whose stored label differs from the computed target, two runs in
immediate succession perform exactly one write: the first run writes the
target label into the catalog and the second run performs none. -/
theorem pipeline_two_runs_single_write (v : VariantAttrs) (id : String)
    (cat : Catalog) (t1 t2 : Int) (h12 : t1 ≤ t2)
    (hwin : t2 < t1 + cooldownMs)
    (hdiff : normalizeTag cat.rawTag ≠ labelStr (classify t1 v)) :
    (runPipeline Cooldown.empty cat v id t1).2.2 = 1 ∧
    (runPipeline Cooldown.empty cat v id t1).2.1.rawTag
      = some (labelStr (classify t1 v)) ∧
    (runPipeline (runPipeline Cooldown.empty cat v id t1).1
        (runPipeline Cooldown.empty cat v id t1).2.1 v id t2).2.2 = 0 := by
  have hgate : Cooldown.hasId Cooldown.empty t1 id = false := rfl
  have hbeq : (labelStr (classify t1 v) == normalizeTag cat.rawTag) = false :=
    beq_eq_false_iff_ne.mpr (Ne.symm hdiff)
  have h1 : runPipeline Cooldown.empty cat v id t1
      = (⟨[(id, t1 + cooldownMs)]⟩, ⟨some (labelStr (classify t1 v))⟩, 1) := by
    unfold runPipeline handleVariant
    rw [hgate]
    simp only [Bool.false_eq_true, if_false, hbeq]
    rfl
  have hgate2 : Cooldown.hasId ⟨[(id, t1 + cooldownMs)]⟩ t2 id = true :=
    hasId_cons_self [] id t2 (t1 + cooldownMs) hwin
  refine ⟨by rw [h1], by rw [h1], ?_⟩
  rw [h1]
  unfold runPipeline
  rw [handleVariant_suppressed _ id t2 _ hgate2]

/-- Witness for C3 (amended): an untagged best-selling variant is written
`"hot"` by the first run at time 0 and not written by the second run at
time 1. -/
theorem pipeline_two_runs_single_write_witness :
    (runPipeline Cooldown.empty ⟨Option.none⟩ exAttrs "v1" 0).2.2 = 1 ∧
    (runPipeline Cooldown.empty ⟨Option.none⟩ exAttrs "v1" 0).2.1.rawTag
      = some (labelStr (classify 0 exAttrs)) ∧
    (runPipeline (runPipeline Cooldown.empty ⟨Option.none⟩ exAttrs "v1" 0).1
        (runPipeline Cooldown.empty ⟨Option.none⟩ exAttrs "v1" 0).2.1
        exAttrs "v1" 1).2.2 = 0 :=
  pipeline_two_runs_single_write exAttrs "v1" ⟨Option.none⟩ 0 1 (by decide)
    (by decide) (by decide)

/-- C6: starting from an empty tracker, a first notification for an id is
admitted (it reaches the catalog read), a second one within the 30-second
window is dropped by the cooldown gate with no catalog read at all, and a
third one arriving once the window has expired is admitted and processed,
whatever each read would return. -/
theorem cooldown_two_notifications (id : String) (t1 t2 t3 : Int)
    (o1 o2 o3 : ReadOutcome) (h12 : t1 ≤ t2) (hwin : t2 < t1 + cooldownMs)
    (hexp : t1 + cooldownMs ≤ t3) :
    Action.read ∈ (handleVariant Cooldown.empty id t1 o1).2.2 ∧
    (handleVariant (handleVariant Cooldown.empty id t1 o1).1 id t2 o2).2
      = (PerIdStatus.cooldownSkip, []) ∧
    Action.read ∈
      (handleVariant
        (handleVariant (handleVariant Cooldown.empty id t1 o1).1 id t2 o2).1
        id t3 o3).2.2 := by
  have hg1 : Cooldown.hasId Cooldown.empty t1 id = false := rfl
  obtain ⟨hs1, hr1⟩ := handleVariant_admitted Cooldown.empty id t1 o1 hg1
  have hg2 : Cooldown.hasId (handleVariant Cooldown.empty id t1 o1).1 t2 id
      = true := by
    rw [hs1]
    exact hasId_cons_self Cooldown.empty.entries id t2 (t1 + cooldownMs) hwin
  have h2 := handleVariant_suppressed _ id t2 o2 hg2
  refine ⟨hr1, by rw [h2], ?_⟩
  have hg3 : Cooldown.hasId
      (handleVariant (handleVariant Cooldown.empty id t1 o1).1 id t2 o2).1 t3 id
      = false := by
    rw [h2, hs1]
    exact hasId_single_expired id t3 (t1 + cooldownMs) hexp
  exact (handleVariant_admitted _ id t3 o3 hg3).2

/-- Witness for C6: notifications for one id at 0 ms, 29999 ms and 30000 ms:
the first reads, the second is dropped without a read, the third reads. -/
theorem cooldown_two_notifications_witness :
    Action.read ∈ (handleVariant Cooldown.empty "v2" 0 ReadOutcome.netError).2.2 ∧
    (handleVariant (handleVariant Cooldown.empty "v2" 0 ReadOutcome.netError).1
        "v2" 29999 ReadOutcome.notFound).2 = (PerIdStatus.cooldownSkip, []) ∧
    Action.read ∈
      (handleVariant
        (handleVariant (handleVariant Cooldown.empty "v2" 0 ReadOutcome.netError).1
          "v2" 29999 ReadOutcome.notFound).1
        "v2" 30000 ReadOutcome.gqlErrors).2.2 :=
  cooldown_two_notifications "v2" 0 29999 30000 ReadOutcome.netError
    ReadOutcome.notFound ReadOutcome.gqlErrors (by decide) (by decide) (by decide)

/-- C10: when an id is admitted, the cooldown entry carrying the 30-second
expiry is inserted no matter how the read then ends (error, missing
variant, skipped or performed write, the entry is never removed on any of
them), and every request for that id at any instant inside the window is
suppressed with no catalog read. -/
theorem cooldown_entry_persists (s : Cooldown) (id : String) (t : Int)
    (o : ReadOutcome) (hadm : s.hasId t id = false) (tq : Int)
    (oq : ReadOutcome) (h1 : t ≤ tq) (h2 : tq < t + cooldownMs) :
    (handleVariant s id t o).1 = ⟨(id, t + cooldownMs) :: s.entries⟩ ∧
    (handleVariant s id t o).1.hasId tq id = true ∧
    handleVariant (handleVariant s id t o).1 id tq oq
      = ((handleVariant s id t o).1, PerIdStatus.cooldownSkip, []) := by
  obtain ⟨hs, -⟩ := handleVariant_admitted s id t o hadm
  have hq : (handleVariant s id t o).1.hasId tq id = true := by
    rw [hs]
    exact hasId_cons_self s.entries id tq (t + cooldownMs) h2
  exact ⟨hs, hq, handleVariant_suppressed _ id tq oq hq⟩

/-- Witness for C10: an id admitted at 0 ms whose read fails to parse still
has its entry at 29999 ms, and a request then is suppressed readlessly. -/
theorem cooldown_entry_persists_witness :
    (handleVariant Cooldown.empty "v3" 0 ReadOutcome.parseError).1
      = ⟨("v3", 0 + cooldownMs) :: Cooldown.empty.entries⟩ ∧
    (handleVariant Cooldown.empty "v3" 0 ReadOutcome.parseError).1.hasId
        29999 "v3" = true ∧
    handleVariant (handleVariant Cooldown.empty "v3" 0 ReadOutcome.parseError).1
        "v3" 29999 ReadOutcome.netError
      = ((handleVariant Cooldown.empty "v3" 0 ReadOutcome.parseError).1,
          PerIdStatus.cooldownSkip, []) :=
  cooldown_entry_persists Cooldown.empty "v3" 0 ReadOutcome.parseError rfl 29999
    ReadOutcome.netError (by decide) (by decide)

/-- C7: each page fetch gets up to 3 attempts; when every page succeeds
within its 3 attempts (in particular on the third) the enumeration returns
every id of every page in order, and when some page fails all 3 attempts
the enumeration returns, as an ordinary list, exactly the ids collected
from the pages before it. -/
theorem bulk_enumeration_retry :
    (∀ pages : List PageSpec,
        (∀ p ∈ pages, ∃ i, i < MAX_RETRIES ∧ p.ok i = true) →
        fetchAllVariants pages = (pages.map PageSpec.ids).flatten) ∧
    (∀ (good : List PageSpec) (bad : PageSpec) (rest : List PageSpec),
        (∀ p ∈ good, ∃ i, i < MAX_RETRIES ∧ p.ok i = true) →
        (∀ i, i < MAX_RETRIES → bad.ok i = false) →
        fetchAllVariants (good ++ bad :: rest)
          = (good.map PageSpec.ids).flatten) := by
  have hsucc : ∀ p : PageSpec, (∃ i, i < MAX_RETRIES ∧ p.ok i = true) →
      pageFetchOk p.ok 0 MAX_RETRIES = true := by
    rintro p ⟨i, hi, hok⟩
    rw [pageFetchOk_three]
    have hi3 : i < 3 := hi
    interval_cases i <;> simp [hok]
  constructor
  · intro pages h
    induction pages with
    | nil => rfl
    | cons p rest ih =>
      have hp := hsucc p (h p (List.mem_cons_self p rest))
      simp only [fetchAllVariants, hp, if_true, List.map_cons, List.flatten]
      rw [ih fun q hq => h q (List.mem_cons_of_mem p hq)]
  · intro good bad rest hgood hbad
    induction good with
    | nil =>
      have hb : pageFetchOk bad.ok 0 MAX_RETRIES = false := by
        rw [pageFetchOk_three, hbad 0 (by decide), hbad 1 (by decide),
          hbad 2 (by decide)]
        rfl
      simp only [List.nil_append, fetchAllVariants, hb, Bool.false_eq_true,
        if_false, List.map_nil, List.flatten]
    | cons p g ih =>
      have hp := hsucc p (hgood p (List.mem_cons_self p g))
      simp only [List.cons_append, fetchAllVariants, hp, if_true,
        List.map_cons, List.flatten, List.append_eq]
      rw [ih fun q hq => hgood q (List.mem_cons_of_mem p hq)]

/-- Witness for C7: a page that fails its first two attempts and succeeds
on the third loses no ids, alone or followed by further pages; a page that
fails all three attempts truncates the run to the pages before it. -/
theorem bulk_enumeration_retry_witness :
    fetchAllVariants [pageA, pageC] = ([pageA, pageC].map PageSpec.ids).flatten ∧
    fetchAllVariants [pageA, pageBad, pageC]
      = ([pageA].map PageSpec.ids).flatten :=
  ⟨bulk_enumeration_retry.1 [pageA, pageC] (by
      intro p hp
      rcases List.mem_cons.mp hp with rfl | hp
      · exact ⟨2, by decide, by decide⟩
      rcases List.mem_cons.mp hp with rfl | hp
      · exact ⟨0, by decide, rfl⟩
      · cases hp),
   bulk_enumeration_retry.2 [pageA] pageBad [pageC] (by
      intro p hp
      rcases List.mem_cons.mp hp with rfl | hp
      · exact ⟨2, by decide, by decide⟩
      · cases hp)
     fun i hi => rfl⟩

/-- C8: within one batch, every id gets exactly one per-id record in order
no matter how its own read or write turned out (thrown error, unparsable
body, GraphQL errors, missing variant, skip or write), so a failure local
to one id never aborts its siblings and the loop always runs to completion;
the only whole-request abort is the inbound signature gate answering
unauthorized, while a valid signature forwards the extracted ids. -/
theorem batch_failure_isolation :
    (∀ (now : Int) (s : Cooldown) (batch : List (String × ReadOutcome)),
        (processBatch now s batch).2.map Prod.fst = batch.map Prod.fst ∧
        (processBatch now s batch).2.length = batch.length) ∧
    (∀ ids : List String,
        webhookHandler false ids = WebhookResult.unauthorized) ∧
    (∀ ids : List String,
        webhookHandler true ids = WebhookResult.forwarded ids) := by
  refine ⟨?_, fun ids => rfl, fun ids => rfl⟩
  intro now s batch
  induction batch generalizing s with
  | nil => exact ⟨rfl, rfl⟩
  | cons x rest ih =>
    obtain ⟨id, o⟩ := x
    have h := ih (handleVariant s id now o).1
    simp only [processBatch, List.map_cons, List.length_cons, h.1, h.2,
      and_self]

end VariantTagger
